import Mathlib

/-!
Verification of the chunked image viewer (images-gl).

This file embeds, as executable Lean definitions, the viewer-side core of the
repository:

* the spatial load scheduler `createSpatialBatches` of the image-viewer
  component (src/unnamed/part_003, lines 286-340), which partitions the chunk
  grid into up to four parity batches;
* the chunk manager of src/src/view/utils.ts (`ChunkStatus`, `ImageChunk`,
  `ChunkManager`, `requestChunk`, `processQueue`, `uploadChunkToGPU`),
  modelled as a small-step state machine whose suspension points are the
  awaited `invoke("get_image_chunk")` calls.

Chunk ids are modelled as pairs of grid indices; the source renders the id
of chunk `(x, y)` as the string with `x`, `_`, `y` concatenated, which is in
bijection with the pair, so nothing is lost.  Timestamps (`lastAccessed`,
set from `Date.now()`) and console logging are elided: no verified property
mentions them.
-/

namespace ImagesGL

/-! ## Spatial scheduler (src/unnamed/part_003, createSpatialBatches) -/

/-- Ascending list of the odd numbers below `n`: the indices visited by a
JS loop `for (let i = 1; i < n; i += 2)`. -/
def oddsBelow (n : Nat) : List Nat :=
  (List.range n).filter (fun i => i % 2 = 1)

/-- Ascending list of the even numbers below `n`: the indices visited by a
JS loop `for (let i = 0; i < n; i += 2)`. -/
def evensBelow (n : Nat) : List Nat :=
  (List.range n).filter (fun i => i % 2 = 0)

/-- One doubly nested batch loop of `createSpatialBatches`: the outer loop
ranges over the row indices `ys`, the inner loop over the column indices
`xs`, and each iteration pushes the id `(x, y)`. -/
def batchOf (xs ys : List Nat) : List (Nat × Nat) :=
  ys.flatMap (fun y => xs.map (fun x => (x, y)))

/-- Embedding of `createSpatialBatches(gridWidth, gridHeight)`
(src/unnamed/part_003, lines 286-340).  The four parity batches are built in
source order (odd/odd, even/even, odd-x/even-y, even-x/odd-y) and a batch is
pushed onto the result only when it is non-empty
(`if (batch.length > 0) batches.push(batch)`). -/
def createSpatialBatches (gridWidth gridHeight : Nat) : List (List (Nat × Nat)) :=
  let batch1 := batchOf (oddsBelow gridWidth) (oddsBelow gridHeight)
  let batch2 := batchOf (evensBelow gridWidth) (evensBelow gridHeight)
  let batch3 := batchOf (oddsBelow gridWidth) (evensBelow gridHeight)
  let batch4 := batchOf (evensBelow gridWidth) (oddsBelow gridHeight)
  [batch1, batch2, batch3, batch4].filter (fun b => 0 < b.length)

lemma mem_oddsBelow {n a : Nat} : a ∈ oddsBelow n ↔ a % 2 = 1 ∧ a < n := by
  simp [oddsBelow, List.mem_filter, List.mem_range, and_comm]

lemma mem_evensBelow {n a : Nat} : a ∈ evensBelow n ↔ a % 2 = 0 ∧ a < n := by
  simp [evensBelow, List.mem_filter, List.mem_range, and_comm]

lemma mem_batchOf {xs ys : List Nat} {p : Nat × Nat} :
    p ∈ batchOf xs ys ↔ p.1 ∈ xs ∧ p.2 ∈ ys := by
  constructor
  · intro h
    simp only [batchOf, List.mem_flatMap, List.mem_map] at h
    obtain ⟨y, hy, x, hx, rfl⟩ := h
    exact ⟨hx, hy⟩
  · rintro ⟨h1, h2⟩
    simp only [batchOf, List.mem_flatMap, List.mem_map]
    exact ⟨p.2, h2, p.1, h1, rfl⟩

lemma count_oddsBelow (n a : Nat) :
    (oddsBelow n).count a = if a % 2 = 1 ∧ a < n then 1 else 0 := by
  by_cases h : a % 2 = 1 ∧ a < n
  · rw [if_pos h]
    refine List.count_eq_one_of_mem ?_ (mem_oddsBelow.mpr h)
    exact (List.nodup_range n).filter _
  · rw [if_neg h, List.count_eq_zero]
    intro hmem
    exact h (mem_oddsBelow.mp hmem)

lemma count_evensBelow (n a : Nat) :
    (evensBelow n).count a = if a % 2 = 0 ∧ a < n then 1 else 0 := by
  by_cases h : a % 2 = 0 ∧ a < n
  · rw [if_pos h]
    refine List.count_eq_one_of_mem ?_ (mem_evensBelow.mpr h)
    exact (List.nodup_range n).filter _
  · rw [if_neg h, List.count_eq_zero]
    intro hmem
    exact h (mem_evensBelow.mp hmem)

lemma count_map_pair (xs : List Nat) (y : Nat) (p : Nat × Nat) :
    (xs.map (fun x => (x, y))).count p =
      if p.2 = y then xs.count p.1 else 0 := by
  induction xs with
  | nil => simp
  | cons x xs ih =>
    rcases p with ⟨a, b⟩
    simp only [List.map_cons, List.count_cons, ih, beq_iff_eq, Prod.mk.injEq]
    by_cases hb : b = y
    · subst hb
      by_cases hx : x = a
      · subst hx
        simp
      · simp [hx]
    · simp [hb, Ne.symm hb]

lemma count_batchOf (xs ys : List Nat) (p : Nat × Nat) :
    (batchOf xs ys).count p = xs.count p.1 * ys.count p.2 := by
  induction ys with
  | nil => simp [batchOf]
  | cons y ys ih =>
    simp only [batchOf, List.flatMap_cons, List.count_append] at *
    rw [ih, count_map_pair, List.count_cons]
    by_cases hy : p.2 = y
    · subst hy
      simp only [if_pos rfl, beq_self_eq_true, if_true]
      ring
    · have hy' : ¬ y = p.2 := fun h => hy h.symm
      simp only [if_neg hy, beq_iff_eq, if_neg hy']
      ring

lemma flatten_filter_pos (l : List (List α)) :
    (l.filter (fun b => 0 < b.length)).flatten = l.flatten := by
  induction l with
  | nil => rfl
  | cons b l ih =>
    by_cases hb : 0 < b.length
    · simp [List.filter_cons, hb, ih]
    · have : b = [] := List.length_eq_zero.mp (Nat.le_zero.mp (Nat.not_lt.mp hb))
      subst this
      simpa [List.filter_cons] using ih

/-- C1: the four spatial batches, concatenated, enumerate each in-grid chunk
id exactly once and contain nothing else: the multiplicity of `(x, y)` in the
flattened output of `createSpatialBatches` is `1` inside the grid and `0`
outside it.  This gives pairwise disjointness and exact coverage at once. -/
theorem createSpatialBatches_exact_cover (gridWidth gridHeight x y : Nat) :
    ((createSpatialBatches gridWidth gridHeight).flatten).count (x, y) =
      if x < gridWidth ∧ y < gridHeight then 1 else 0 := by
  unfold createSpatialBatches
  rw [flatten_filter_pos]
  simp only [List.flatten_cons, List.flatten_nil, List.append_nil, List.count_append]
  rw [count_batchOf, count_batchOf, count_batchOf, count_batchOf]
  simp only [count_oddsBelow, count_evensBelow]
  rcases Nat.mod_two_eq_zero_or_one x with hx | hx <;>
    rcases Nat.mod_two_eq_zero_or_one y with hy | hy <;>
      by_cases hbx : x < gridWidth <;> by_cases hby : y < gridHeight <;>
        simp [hx, hy, hbx, hby]

lemma batch_parities {gridWidth gridHeight : Nat} {b : List (Nat × Nat)}
    (hb : b ∈ createSpatialBatches gridWidth gridHeight) :
    ∃ px py, ∀ p ∈ b, p.1 % 2 = px ∧ p.2 % 2 = py := by
  have hb' := (List.mem_filter.mp hb).1
  simp only [List.mem_cons, List.not_mem_nil, or_false] at hb'
  rcases hb' with rfl | rfl | rfl | rfl
  · exact ⟨1, 1, fun p hp => by
      obtain ⟨h1, h2⟩ := mem_batchOf.mp hp
      exact ⟨(mem_oddsBelow.mp h1).1, (mem_oddsBelow.mp h2).1⟩⟩
  · exact ⟨0, 0, fun p hp => by
      obtain ⟨h1, h2⟩ := mem_batchOf.mp hp
      exact ⟨(mem_evensBelow.mp h1).1, (mem_evensBelow.mp h2).1⟩⟩
  · exact ⟨1, 0, fun p hp => by
      obtain ⟨h1, h2⟩ := mem_batchOf.mp hp
      exact ⟨(mem_oddsBelow.mp h1).1, (mem_evensBelow.mp h2).1⟩⟩
  · exact ⟨0, 1, fun p hp => by
      obtain ⟨h1, h2⟩ := mem_batchOf.mp hp
      exact ⟨(mem_evensBelow.mp h1).1, (mem_oddsBelow.mp h2).1⟩⟩

/-- C5: no two distinct tiles of the first batch produced by
`createSpatialBatches` are 4-neighbors in the grid: their Manhattan distance
is never `1`.  (The first batch is the odd/odd batch whenever that batch is
non-empty; the proof covers every possible first batch, since all four
parity batches are 4-neighbor-free.) -/
theorem firstBatch_no_four_neighbors (gridWidth gridHeight : Nat) (p q : Nat × Nat)
    (hp : p ∈ (createSpatialBatches gridWidth gridHeight).headD [])
    (hq : q ∈ (createSpatialBatches gridWidth gridHeight).headD [])
    (hpq : p ≠ q) :
    ((p.1 : Int) - q.1).natAbs + ((p.2 : Int) - q.2).natAbs ≠ 1 := by
  cases hcs : createSpatialBatches gridWidth gridHeight with
  | nil => rw [hcs] at hp; simp at hp
  | cons b bs =>
    rw [hcs] at hp hq
    simp only [List.headD_cons] at hp hq
    have hb : b ∈ createSpatialBatches gridWidth gridHeight := by
      rw [hcs]; exact List.mem_cons_self _ _
    obtain ⟨px, py, hpar⟩ := batch_parities hb
    obtain ⟨hp1, hp2⟩ := hpar p hp
    obtain ⟨hq1, hq2⟩ := hpar q hq
    omega

/-- Witness for C5 on a concrete grid: `(1, 1)` and `(3, 1)` both lie in the
first batch of the 4×4 grid and are not 4-neighbors. -/
theorem firstBatch_no_four_neighbors_witness :
    ((1, 1) : Nat × Nat) ∈ (createSpatialBatches 4 4).headD [] ∧
    ((3, 1) : Nat × Nat) ∈ (createSpatialBatches 4 4).headD [] ∧
    ((1, 1) : Nat × Nat) ≠ (3, 1) ∧
    (((1 : Nat) : Int) - ((3 : Nat) : Int)).natAbs +
      (((1 : Nat) : Int) - ((1 : Nat) : Int)).natAbs ≠ 1 :=
  ⟨by decide, by decide, by decide,
    firstBatch_no_four_neighbors 4 4 (1, 1) (3, 1) (by decide) (by decide) (by decide)⟩

/-- C9 counterexample: on the 1×1 grid (which satisfies `gx ≥ 1` and
`gy ≥ 1`) `createSpatialBatches` drops the three empty parity batches and
emits a single batch, not four. -/
theorem createSpatialBatches_one_one_single_batch :
    createSpatialBatches 1 1 = [[(0, 0)]] ∧ (createSpatialBatches 1 1).length ≠ 4 := by
  constructor
  · decide
  · decide

/-- C9 amended: `createSpatialBatches` enumerates the four parity batches in
source order but pushes only the non-empty ones; when both grid dimensions
are at least 2 all four batches are non-empty and exactly four are emitted,
and for the 2×2 grid the batches are `[(1,1)], [(0,0)], [(1,0)], [(0,1)]`. -/
theorem createSpatialBatches_four_when_big (gridWidth gridHeight : Nat)
    (h1 : 2 ≤ gridWidth) (h2 : 2 ≤ gridHeight) :
    (createSpatialBatches gridWidth gridHeight).length = 4 ∧
    createSpatialBatches 2 2 = [[(1, 1)], [(0, 0)], [(1, 0)], [(0, 1)]] := by
  refine ⟨?_, by decide⟩
  have m1 : ((1, 1) : Nat × Nat) ∈ batchOf (oddsBelow gridWidth) (oddsBelow gridHeight) :=
    mem_batchOf.mpr ⟨mem_oddsBelow.mpr ⟨rfl, h1⟩, mem_oddsBelow.mpr ⟨rfl, h2⟩⟩
  have m2 : ((0, 0) : Nat × Nat) ∈ batchOf (evensBelow gridWidth) (evensBelow gridHeight) :=
    mem_batchOf.mpr ⟨mem_evensBelow.mpr ⟨rfl, by omega⟩, mem_evensBelow.mpr ⟨rfl, by omega⟩⟩
  have m3 : ((1, 0) : Nat × Nat) ∈ batchOf (oddsBelow gridWidth) (evensBelow gridHeight) :=
    mem_batchOf.mpr ⟨mem_oddsBelow.mpr ⟨rfl, h1⟩, mem_evensBelow.mpr ⟨rfl, by omega⟩⟩
  have m4 : ((0, 1) : Nat × Nat) ∈ batchOf (evensBelow gridWidth) (oddsBelow gridHeight) :=
    mem_batchOf.mpr ⟨mem_evensBelow.mpr ⟨rfl, by omega⟩, mem_oddsBelow.mpr ⟨rfl, h2⟩⟩
  have l1 := List.length_pos_of_mem m1
  have l2 := List.length_pos_of_mem m2
  have l3 := List.length_pos_of_mem m3
  have l4 := List.length_pos_of_mem m4
  simp [createSpatialBatches, List.filter_cons, l1, l2, l3, l4]

/-- Witness for the C9 amendment at the 2×2 grid. -/
theorem createSpatialBatches_four_when_big_witness :
    (createSpatialBatches 2 2).length = 4 ∧
    createSpatialBatches 2 2 = [[(1, 1)], [(0, 0)], [(1, 0)], [(0, 1)]] :=
  createSpatialBatches_four_when_big 2 2 (by decide) (by decide)

/-! ## Chunk manager (src/src/view/utils.ts, lines 501-919)

The chunk manager runs on a single cooperative task; its only suspension
points are the awaited `invoke("get_image_chunk")` calls inside
`processQueue`.  We model it as a state machine: `requestChunk` is one
atomic step, and the resumption of a suspended `processQueue` body when its
fetch settles (`settleRequest` below) is another.  A chunk id is the pair of
grid indices; the source renders it as the string `chunk_x`, `_`, `chunk_y`,
which is in bijection with the pair.  GPU texture handles are modelled as
naturals drawn from a counter; the WebGL context is taken to be installed
(`setWebGLContext` runs at session start, before any request), and the
outcome of texture creation/upload is an explicit `gpuOk` parameter.
`lastAccessed` timestamps, console logging and the `onChunkReady` callback
carry no state the claims mention and are elided; successful uploads are
instead recorded in a history field `uploads`. -/

/-- Embedding of the `ChunkStatus` enum (utils.ts lines 504-510). -/
inductive ChunkStatus
  | unrequested
  | requesting
  | inCpu
  | inGpu
  | error
deriving DecidableEq, Repr

/-- Embedding of the `ChunkInfo` interface (utils.ts lines 513-520). -/
structure ChunkInfo where
  x : Nat
  y : Nat
  width : Nat
  height : Nat
  chunk_x : Nat
  chunk_y : Nat
deriving DecidableEq, Repr

/-- Embedding of the `ImageMetadata` interface (utils.ts lines 523-530). -/
structure ImageMetadata where
  total_width : Nat
  total_height : Nat
  chunk_size : Nat
  chunks_x : Nat
  chunks_y : Nat
  chunks : List ChunkInfo
deriving DecidableEq, Repr

/-- A chunk id: the pair of grid indices rendered as `x_y` in the source. -/
abbrev ChunkId := Nat × Nat

/-- Embedding of the `ImageChunk` class (utils.ts lines 536-590): pixel
`data` is an optional byte list, `texture` an optional GPU handle.  The
`lastAccessed` timestamp is elided. -/
structure ImageChunk where
  x : Nat
  y : Nat
  width : Nat
  height : Nat
  chunk_x : Nat
  chunk_y : Nat
  status : ChunkStatus
  data : Option (List Nat) := none
  texture : Option Nat := none
deriving DecidableEq, Repr

/-- The `ImageChunk` constructor (utils.ts lines 549-559): copies the
`ChunkInfo` fields and starts in `UNREQUESTED`. -/
def ImageChunk.ofInfo (ci : ChunkInfo) : ImageChunk :=
  { x := ci.x, y := ci.y, width := ci.width, height := ci.height,
    chunk_x := ci.chunk_x, chunk_y := ci.chunk_y, status := .unrequested }

/-- `ImageChunk.updateStatus` (utils.ts lines 562-567); the `lastAccessed`
bump it also performs is elided. -/
def ImageChunk.updateStatus (c : ImageChunk) (s : ChunkStatus) : ImageChunk :=
  { c with status := s }

/-- `ImageChunk.setData` (utils.ts lines 570-573): stores the pixels and
moves to `IN_CPU`. -/
def ImageChunk.setData (c : ImageChunk) (d : List Nat) : ImageChunk :=
  ({ c with data := some d }).updateStatus .inCpu

/-- `ImageChunk.setTexture` (utils.ts lines 576-579): stores the handle and
moves to `IN_GPU`. -/
def ImageChunk.setTexture (c : ImageChunk) (t : Nat) : ImageChunk :=
  ({ c with texture := some t }).updateStatus .inGpu

/-- `ImageChunk.cleanup` (utils.ts lines 582-589): deletes the texture,
drops the pixel data and returns to `UNREQUESTED`. -/
def ImageChunk.cleanup (c : ImageChunk) : ImageChunk :=
  { c with texture := none, data := none, status := .unrequested }

/-- Lookup in the `Map<string, ImageChunk>` of the manager, as an
association list keyed by chunk id (`this.chunks.get(chunkId)`). -/
def lookupChunk : List (ChunkId × ImageChunk) → ChunkId → Option ImageChunk
  | [], _ => none
  | (k, c) :: rest, chunkId => if k = chunkId then some c else lookupChunk rest chunkId

/-- In-place mutation of the chunk object held in the map: replaces the
entry for `chunkId` (the source mutates the shared `ImageChunk` reference,
which is only ever stored under its own id). -/
def storeChunk : List (ChunkId × ImageChunk) → ChunkId → ImageChunk →
    List (ChunkId × ImageChunk)
  | [], _, _ => []
  | (k, c) :: rest, chunkId, c' =>
    if k = chunkId then (k, c') :: rest else (k, c) :: storeChunk rest chunkId c'

/-- `maxConcurrentRequests` (utils.ts line 597). -/
def maxConcurrentRequests : Nat := 3

/-- State of the `ChunkManager` class (utils.ts lines 593-601) relevant to a
single session.  `inFlight` is the multiset of chunk ids whose
`invoke("get_image_chunk")` call has been issued and has not settled
(implicit in the source as the suspended `processQueue` bodies); `uploads`
is a history variable recording one entry per successful GPU upload;
`nextTex` feeds fresh texture handles. -/
structure ChunkManager where
  chunks : List (ChunkId × ImageChunk) := []
  requestQueue : List ChunkId := []
  activeRequests : Nat := 0
  inFlight : List ChunkId := []
  uploads : List ChunkId := []
  nextTex : Nat := 0
deriving DecidableEq, Repr

def ChunkManager.findChunk (m : ChunkManager) (chunkId : ChunkId) : Option ImageChunk :=
  lookupChunk m.chunks chunkId

def ChunkManager.setChunk (m : ChunkManager) (chunkId : ChunkId) (c : ImageChunk) :
    ChunkManager :=
  { m with chunks := storeChunk m.chunks chunkId c }

/-- `initializeChunksFromMetadata` (utils.ts lines 619-647): creates one
`ImageChunk` per `ChunkInfo`, keyed by its grid indices. -/
def initializeChunksFromMetadata (metadata : ImageMetadata) : ChunkManager :=
  { chunks := metadata.chunks.map
      (fun ci => ((ci.chunk_x, ci.chunk_y), ImageChunk.ofInfo ci)) }

/-- Reads a big-endian unsigned 32-bit integer from a byte list, as
`DataView.getUint32(off, false)` over a `Uint8Array` (each stored byte is
reduced mod 256). -/
def readU32BE (bytes : List Nat) (off : Nat) : Nat :=
  (bytes.getD off 0 % 256) * 16777216 + (bytes.getD (off + 1) 0 % 256) * 65536 +
    (bytes.getD (off + 2) 0 % 256) * 256 + bytes.getD (off + 3) 0 % 256

/-- The blob validation performed inline in `processQueue` (utils.ts lines
755-787): require at least 8 bytes, read the big-endian width and height,
take the remainder as pixels, and require exactly `width * height * 4` pixel
bytes; `none` is the thrown `Error` (both throws land in the same `catch`). -/
def parseChunkBlob (bytes : List Nat) : Option (Nat × Nat × List Nat) :=
  if bytes.length < 8 then none
  else
    let width := readU32BE bytes 0
    let height := readU32BE bytes 4
    let pixels := bytes.drop 8
    if pixels.length ≠ width * height * 4 then none
    else some (width, height, pixels)

/-- The synchronous prefix of `processQueue` (utils.ts lines 705-725), up to
the `await invoke("get_image_chunk")` suspension: bail out when the
concurrency cap is reached or the queue is empty, otherwise shift the next
id, take a slot, mark the chunk `REQUESTING` and issue its fetch.  (When the
shifted id is not in the map the slot is released and nothing is issued,
utils.ts lines 717-721.) -/
def ChunkManager.processQueue (m : ChunkManager) : ChunkManager :=
  if maxConcurrentRequests ≤ m.activeRequests then m
  else
    match m.requestQueue with
    | [] => m
    | chunkId :: rest =>
      let m1 : ChunkManager :=
        { m with requestQueue := rest, activeRequests := m.activeRequests + 1 }
      match m1.findChunk chunkId with
      | none => { m1 with activeRequests := m1.activeRequests - 1 }
      | some chunk =>
        let m2 := m1.setChunk chunkId (chunk.updateStatus .requesting)
        { m2 with inFlight := chunkId :: m2.inFlight }

/-- `requestChunk` (utils.ts lines 681-702): unknown ids are ignored;
chunks already `REQUESTING`, `IN_CPU` or `IN_GPU` are skipped; anything else
(`UNREQUESTED` or `ERROR`) is pushed onto the queue and the queue is
pumped. -/
def ChunkManager.requestChunk (m : ChunkManager) (chunkId : ChunkId) : ChunkManager :=
  match m.findChunk chunkId with
  | none => m
  | some chunk =>
    if chunk.status = .requesting ∨ chunk.status = .inCpu ∨ chunk.status = .inGpu then m
    else ({ m with requestQueue := m.requestQueue ++ [chunkId] }).processQueue

/-- `uploadChunkToGPU` (utils.ts lines 812-871) for a chunk whose data was
just set: when texture creation and upload succeed (`gpuOk`) a fresh handle
is stored via `setTexture` (moving the chunk to `IN_GPU`) and the upload is
recorded; when they fail, the internal `catch` moves the chunk to `ERROR`
(leaving `texture` as it was). -/
def ChunkManager.uploadChunkToGPU (m : ChunkManager) (chunkId : ChunkId)
    (chunk : ImageChunk) (gpuOk : Bool) : ChunkManager :=
  if gpuOk then
    let texture := m.nextTex
    ({ m with nextTex := m.nextTex + 1, uploads := chunkId :: m.uploads }).setChunk
      chunkId (chunk.setTexture texture)
  else
    m.setChunk chunkId (chunk.updateStatus .error)

/-- The result of an awaited `invoke("get_image_chunk")` call: a byte
buffer, or a rejection (IPC failure). -/
inductive FetchResult
  | ok (bytes : List Nat)
  | err
deriving DecidableEq, Repr

/-- The `try`/`catch` body of `processQueue` applied to the fetched chunk
(utils.ts lines 735-803): an IPC rejection or an invalid blob lands in the
`catch` and marks the chunk `ERROR`; a valid blob overwrites the chunk's
dimensions from the header, sets its data (`IN_CPU`) and uploads it. -/
def ChunkManager.applyOutcome (m0 : ChunkManager) (chunkId : ChunkId) (chunk : ImageChunk) :
    FetchResult → Bool → ChunkManager
  | .err, _ => m0.setChunk chunkId (chunk.updateStatus .error)
  | .ok bytes, gpuOk =>
    match parseChunkBlob bytes with
    | none => m0.setChunk chunkId (chunk.updateStatus .error)
    | some (width, height, pixels) =>
      m0.uploadChunkToGPU chunkId
        (({ chunk with width := width, height := height }).setData pixels) gpuOk

/-- Resumption of a suspended `processQueue` body (utils.ts lines 726-804)
when the fetch for `chunkId` settles, up to but excluding the trailing
`this.processQueue()` call of the `finally` block, which releases the
concurrency slot.  A settle for an id with no pending fetch is a no-op. -/
def ChunkManager.settleCore (m : ChunkManager) (chunkId : ChunkId) (r : FetchResult)
    (gpuOk : Bool) : ChunkManager :=
  if chunkId ∈ m.inFlight then
    let m0 : ChunkManager := { m with inFlight := m.inFlight.erase chunkId }
    let m1 :=
      match m0.findChunk chunkId with
      | none => m0
      | some chunk => m0.applyOutcome chunkId chunk r gpuOk
    { m1 with activeRequests := m1.activeRequests - 1 }
  else m

/-- A full settle: the resumed `processQueue` body followed by the
`this.processQueue()` call of its `finally` block. -/
def ChunkManager.settleRequest (m : ChunkManager) (chunkId : ChunkId) (r : FetchResult)
    (gpuOk : Bool) : ChunkManager :=
  (m.settleCore chunkId r gpuOk).processQueue

/-- An atomic step of the manager task: a `requestChunk` call, or the
settling of one in-flight fetch (with the given outcome). -/
inductive Event
  | request (chunkId : ChunkId)
  | settle (chunkId : ChunkId) (r : FetchResult) (gpuOk : Bool)
deriving DecidableEq, Repr

def ChunkManager.step (m : ChunkManager) : Event → ChunkManager
  | .request chunkId => m.requestChunk chunkId
  | .settle chunkId r gpuOk => m.settleRequest chunkId r gpuOk

/-- A session: the interleaving of `requestChunk` calls and fetch
settlements, from a manager initialized with the given metadata. -/
def ChunkManager.run (m : ChunkManager) (evs : List Event) : ChunkManager :=
  evs.foldl ChunkManager.step m

/-! ## Basic lemmas about the chunk map and blob parsing -/

lemma lookupChunk_storeChunk_self {l : List (ChunkId × ImageChunk)} {chunkId : ChunkId}
    {c : ImageChunk} (c' : ImageChunk) (h : lookupChunk l chunkId = some c) :
    lookupChunk (storeChunk l chunkId c') chunkId = some c' := by
  induction l with
  | nil => simp [lookupChunk] at h
  | cons p rest ih =>
    rcases p with ⟨k, c0⟩
    by_cases hk : k = chunkId
    · subst hk
      simp [lookupChunk, storeChunk]
    · simp only [lookupChunk, storeChunk, if_neg hk] at *
      exact ih h

lemma lookupChunk_storeChunk_other {l : List (ChunkId × ImageChunk)} {chunkId j : ChunkId}
    (c' : ImageChunk) (hne : j ≠ chunkId) :
    lookupChunk (storeChunk l chunkId c') j = lookupChunk l j := by
  induction l with
  | nil => rfl
  | cons p rest ih =>
    rcases p with ⟨k, c0⟩
    by_cases hk : k = chunkId
    · subst hk
      have hkj : ¬ k = j := fun h => hne h.symm
      simp [lookupChunk, storeChunk, hkj]
    · by_cases hkj : k = j
      · subst hkj
        simp [lookupChunk, storeChunk, hk]
      · simp [lookupChunk, storeChunk, hk, hkj, ih]

lemma findChunk_setChunk_self {m : ChunkManager} {chunkId : ChunkId} {c : ImageChunk}
    (c' : ImageChunk) (h : m.findChunk chunkId = some c) :
    (m.setChunk chunkId c').findChunk chunkId = some c' :=
  lookupChunk_storeChunk_self c' h

lemma findChunk_setChunk_other {m : ChunkManager} {chunkId j : ChunkId} (c' : ImageChunk)
    (hne : j ≠ chunkId) : (m.setChunk chunkId c').findChunk j = m.findChunk j :=
  lookupChunk_storeChunk_other c' hne

lemma parseChunkBlob_eq_none_iff (bytes : List Nat) :
    parseChunkBlob bytes = none ↔
      bytes.length < 8 ∨ bytes.length - 8 ≠ readU32BE bytes 0 * readU32BE bytes 4 * 4 := by
  unfold parseChunkBlob
  by_cases h8 : bytes.length < 8
  · simp [h8]
  · rw [if_neg h8]
    simp only [List.length_drop]
    by_cases hsz : bytes.length - 8 ≠ readU32BE bytes 0 * readU32BE bytes 4 * 4
    · simp [hsz, h8]
    · simp [hsz, h8]

lemma parseChunkBlob_eq_some {bytes : List Nat} {width height : Nat} {pixels : List Nat}
    (h : parseChunkBlob bytes = some (width, height, pixels)) :
    width = readU32BE bytes 0 ∧ height = readU32BE bytes 4 ∧
      pixels = bytes.drop 8 ∧ pixels.length = width * height * 4 := by
  unfold parseChunkBlob at h
  by_cases h8 : bytes.length < 8
  · rw [if_pos h8] at h
    simp at h
  · rw [if_neg h8] at h
    simp only [List.length_drop] at h
    by_cases hsz : bytes.length - 8 = readU32BE bytes 0 * readU32BE bytes 4 * 4
    · rw [if_neg (not_not.mpr hsz)] at h
      simp only [Option.some.injEq, Prod.mk.injEq] at h
      obtain ⟨h1, h2, h3⟩ := h
      subst h1; subst h2; subst h3
      exact ⟨rfl, rfl, rfl, by rw [List.length_drop]; exact hsz⟩
    · rw [if_pos hsz] at h
      simp at h

/-! ## Characterization lemmas for the manager transitions -/

lemma findChunk_withActive (m : ChunkManager) (a : Nat) (chunkId : ChunkId) :
    ({ m with activeRequests := a } : ChunkManager).findChunk chunkId = m.findChunk chunkId :=
  rfl

lemma findChunk_withInFlight (m : ChunkManager) (l : List ChunkId) (chunkId : ChunkId) :
    ({ m with inFlight := l } : ChunkManager).findChunk chunkId = m.findChunk chunkId :=
  rfl

lemma settleCore_eq_of_found {m : ChunkManager} {chunkId : ChunkId} {c : ImageChunk}
    (r : FetchResult) (g : Bool) (hin : chunkId ∈ m.inFlight)
    (hc : m.findChunk chunkId = some c) :
    m.settleCore chunkId r g =
      { ({ m with inFlight := m.inFlight.erase chunkId } : ChunkManager).applyOutcome
            chunkId c r g with
        activeRequests :=
          (({ m with inFlight := m.inFlight.erase chunkId } : ChunkManager).applyOutcome
              chunkId c r g).activeRequests - 1 } := by
  unfold ChunkManager.settleCore
  rw [if_pos hin]
  have hc0 : ({ m with inFlight := m.inFlight.erase chunkId } : ChunkManager).findChunk
      chunkId = some c := hc
  simp only [hc0]

lemma applyOutcome_requestQueue (m0 : ChunkManager) (chunkId : ChunkId) (chunk : ImageChunk)
    (r : FetchResult) (g : Bool) :
    (m0.applyOutcome chunkId chunk r g).requestQueue = m0.requestQueue := by
  cases r with
  | err => rfl
  | ok bytes =>
    simp only [ChunkManager.applyOutcome]
    cases hp : parseChunkBlob bytes with
    | none => rfl
    | some t =>
      rcases t with ⟨w, h, px⟩
      cases g <;> rfl

lemma applyOutcome_activeRequests (m0 : ChunkManager) (chunkId : ChunkId) (chunk : ImageChunk)
    (r : FetchResult) (g : Bool) :
    (m0.applyOutcome chunkId chunk r g).activeRequests = m0.activeRequests := by
  cases r with
  | err => rfl
  | ok bytes =>
    simp only [ChunkManager.applyOutcome]
    cases hp : parseChunkBlob bytes with
    | none => rfl
    | some t =>
      rcases t with ⟨w, h, px⟩
      cases g <;> rfl

lemma applyOutcome_inFlight (m0 : ChunkManager) (chunkId : ChunkId) (chunk : ImageChunk)
    (r : FetchResult) (g : Bool) :
    (m0.applyOutcome chunkId chunk r g).inFlight = m0.inFlight := by
  cases r with
  | err => rfl
  | ok bytes =>
    simp only [ChunkManager.applyOutcome]
    cases hp : parseChunkBlob bytes with
    | none => rfl
    | some t =>
      rcases t with ⟨w, h, px⟩
      cases g <;> rfl

lemma applyOutcome_findChunk_other (m0 : ChunkManager) (chunkId : ChunkId)
    (chunk : ImageChunk) (r : FetchResult) (g : Bool) {j : ChunkId} (hne : j ≠ chunkId) :
    (m0.applyOutcome chunkId chunk r g).findChunk j = m0.findChunk j := by
  cases r with
  | err => exact findChunk_setChunk_other _ hne
  | ok bytes =>
    simp only [ChunkManager.applyOutcome]
    cases hp : parseChunkBlob bytes with
    | none => exact findChunk_setChunk_other _ hne
    | some t =>
      rcases t with ⟨w, h, px⟩
      cases g with
      | false => exact findChunk_setChunk_other _ hne
      | true => exact findChunk_setChunk_other _ hne

lemma applyOutcome_status_of_fail {m0 : ChunkManager} {chunkId : ChunkId}
    {chunk : ImageChunk} {r : FetchResult} {g : Bool}
    (hc0 : m0.findChunk chunkId = some chunk)
    (hfail : r = .err ∨ (∃ bytes, r = .ok bytes ∧ parseChunkBlob bytes = none) ∨
      (∃ bytes, r = .ok bytes ∧ g = false)) :
    ((m0.applyOutcome chunkId chunk r g).findChunk chunkId).map ImageChunk.status =
      some .error := by
  rcases hfail with rfl | ⟨bytes, rfl, hp⟩ | ⟨bytes, rfl, rfl⟩
  · rw [show m0.applyOutcome chunkId chunk .err g =
        m0.setChunk chunkId (chunk.updateStatus .error) from rfl]
    rw [findChunk_setChunk_self _ hc0]
    rfl
  · simp only [ChunkManager.applyOutcome, hp]
    rw [findChunk_setChunk_self _ hc0]
    rfl
  · simp only [ChunkManager.applyOutcome]
    cases hp : parseChunkBlob bytes with
    | none =>
      rw [findChunk_setChunk_self _ hc0]
      rfl
    | some t =>
      rcases t with ⟨w, h, px⟩
      simp only [ChunkManager.uploadChunkToGPU, Bool.false_eq_true, if_false]
      rw [findChunk_setChunk_self _ hc0]
      rfl

lemma processQueue_of_cap {m : ChunkManager}
    (h : maxConcurrentRequests ≤ m.activeRequests) : m.processQueue = m := by
  unfold ChunkManager.processQueue
  rw [if_pos h]

lemma processQueue_of_empty {m : ChunkManager} (h : m.requestQueue = []) :
    m.processQueue = m := by
  unfold ChunkManager.processQueue
  rw [h]
  split <;> rfl

lemma processQueue_starts {m : ChunkManager} {q : ChunkId} {rest : List ChunkId}
    {cq : ImageChunk} (hcap : m.activeRequests < maxConcurrentRequests)
    (hq : m.requestQueue = q :: rest) (hfound : m.findChunk q = some cq) :
    m.processQueue =
      { ({ m with
            requestQueue := rest,
            activeRequests := m.activeRequests + 1 } : ChunkManager).setChunk q
          (cq.updateStatus .requesting) with
        inFlight := q :: m.inFlight } := by
  unfold ChunkManager.processQueue
  rw [if_neg (Nat.not_le.mpr hcap), hq]
  have hfound1 : ({ m with
      requestQueue := rest,
      activeRequests := m.activeRequests + 1 } : ChunkManager).findChunk q = some cq := hfound
  simp only [hfound1]
  rfl

lemma settleCore_ok_findChunk_eq {m : ChunkManager} {chunkId : ChunkId} {c : ImageChunk}
    (r : FetchResult) (g : Bool) (hin : chunkId ∈ m.inFlight)
    (hc : m.findChunk chunkId = some c) :
    (m.settleCore chunkId r g).findChunk chunkId =
      (({ m with inFlight := m.inFlight.erase chunkId } : ChunkManager).applyOutcome
          chunkId c r g).findChunk chunkId := by
  rw [settleCore_eq_of_found r g hin hc]
  rfl

lemma processQueue_findChunk_of_head_ne {m : ChunkManager} {j : ChunkId}
    (hj : m.requestQueue.head? ≠ some j) :
    m.processQueue.findChunk j = m.findChunk j := by
  unfold ChunkManager.processQueue
  split
  · rfl
  · split
    · rfl
    · next q rest heq =>
      rw [heq] at hj
      have hne : j ≠ q := fun h => hj (by rw [h]; rfl)
      dsimp only
      split
      · rfl
      · exact findChunk_setChunk_other _ hne

/-! ## C2 and C10: blob validation and dimension override -/

/-- C2: a blob settling through the manager drives its chunk to `ERROR`
exactly when the blob is shorter than 8 bytes or its length minus 8 differs
from `w * h * 4` for the big-endian header fields `w`, `h` at offsets 0 and
4 (GPU upload succeeding, so that the only failure source is framing); and
whenever both checks pass the extracted pixel array has exactly
`w * h * 4` bytes. -/
theorem settle_framing_error_iff (m : ChunkManager) (chunkId : ChunkId) (c : ImageChunk)
    (bytes : List Nat) (hin : chunkId ∈ m.inFlight) (hc : m.findChunk chunkId = some c) :
    (((m.settleCore chunkId (.ok bytes) true).findChunk chunkId).map ImageChunk.status
        = some .error ↔
      bytes.length < 8 ∨ bytes.length - 8 ≠ readU32BE bytes 0 * readU32BE bytes 4 * 4) ∧
    (∀ width height pixels, parseChunkBlob bytes = some (width, height, pixels) →
      pixels.length = width * height * 4) := by
  refine ⟨?_, fun width height pixels hp => (parseChunkBlob_eq_some hp).2.2.2⟩
  rw [settleCore_ok_findChunk_eq (.ok bytes) true hin hc]
  rw [← parseChunkBlob_eq_none_iff]
  have hcL : lookupChunk m.chunks chunkId = some c := hc
  cases hp : parseChunkBlob bytes with
  | none =>
    constructor
    · intro _
      rfl
    · intro _
      simp only [ChunkManager.applyOutcome, hp, ChunkManager.setChunk, ChunkManager.findChunk]
      rw [lookupChunk_storeChunk_self _ hcL]
      rfl
  | some t =>
    rcases t with ⟨w, h, px⟩
    constructor
    · intro herr
      simp only [ChunkManager.applyOutcome, hp, ChunkManager.uploadChunkToGPU, if_true,
        ChunkManager.setChunk, ChunkManager.findChunk] at herr
      rw [lookupChunk_storeChunk_self _ hcL] at herr
      simp [ImageChunk.setTexture, ImageChunk.setData, ImageChunk.updateStatus] at herr
    · intro hnone
      exact absurd hnone (by simp)

/-- Witness for C2: a 3-byte blob fails framing and errors the chunk. -/
def chunkInfoA : ChunkInfo := ⟨0, 0, 1, 1, 0, 0⟩

/-- A manager with the single chunk `(0, 0)` requested and in flight. -/
def wmInFlight : ChunkManager :=
  { chunks := [((0, 0), (ImageChunk.ofInfo chunkInfoA).updateStatus .requesting)],
    activeRequests := 1, inFlight := [(0, 0)] }

theorem settle_framing_error_iff_witness :
    ((0, 0) : ChunkId) ∈ wmInFlight.inFlight ∧
    wmInFlight.findChunk (0, 0) =
      some ((ImageChunk.ofInfo chunkInfoA).updateStatus .requesting) ∧
    ((wmInFlight.settleCore (0, 0) (.ok [1, 2, 3]) true).findChunk (0, 0)).map
      ImageChunk.status = some .error :=
  ⟨by decide, by decide,
    (settle_framing_error_iff wmInFlight (0, 0)
        ((ImageChunk.ofInfo chunkInfoA).updateStatus .requesting) [1, 2, 3]
        (by decide) (by decide)).1.mpr (by decide)⟩

/-- C10: when a blob parses successfully, the settled chunk stores the
blob's own big-endian header fields as its width and height, whatever
dimensions the metadata had declared for the chunk. -/
theorem blob_dimensions_override (m : ChunkManager) (chunkId : ChunkId) (c : ImageChunk)
    (bytes : List Nat) (width height : Nat) (pixels : List Nat) (gpuOk : Bool)
    (hin : chunkId ∈ m.inFlight) (hc : m.findChunk chunkId = some c)
    (hp : parseChunkBlob bytes = some (width, height, pixels)) :
    ((m.settleCore chunkId (.ok bytes) gpuOk).findChunk chunkId).map
        (fun ch => (ch.width, ch.height)) = some (width, height) ∧
    width = readU32BE bytes 0 ∧ height = readU32BE bytes 4 := by
  refine ⟨?_, (parseChunkBlob_eq_some hp).1, (parseChunkBlob_eq_some hp).2.1⟩
  rw [settleCore_ok_findChunk_eq (.ok bytes) gpuOk hin hc]
  have hcL : lookupChunk m.chunks chunkId = some c := hc
  simp only [ChunkManager.applyOutcome, hp]
  cases gpuOk with
  | false =>
    simp only [ChunkManager.uploadChunkToGPU, Bool.false_eq_true, if_false,
      ChunkManager.setChunk, ChunkManager.findChunk]
    rw [lookupChunk_storeChunk_self _ hcL]
    rfl
  | true =>
    simp only [ChunkManager.uploadChunkToGPU, if_true,
      ChunkManager.setChunk, ChunkManager.findChunk]
    rw [lookupChunk_storeChunk_self _ hcL]
    rfl

/-- A 2×1 blob, disagreeing with the 1×1 dimensions `chunkInfoA` declares. -/
def blobTwoByOne : List Nat := [0, 0, 0, 2, 0, 0, 0, 1, 9, 9, 9, 9, 8, 8, 8, 8]

/-- Witness for C10: the settled chunk reports the blob's 2×1 dimensions
even though its metadata declared 1×1. -/
theorem blob_dimensions_override_witness :
    ((0, 0) : ChunkId) ∈ wmInFlight.inFlight ∧
    ((ImageChunk.ofInfo chunkInfoA).updateStatus .requesting).width = 1 ∧
    parseChunkBlob blobTwoByOne = some (2, 1, [9, 9, 9, 9, 8, 8, 8, 8]) ∧
    ((wmInFlight.settleCore (0, 0) (.ok blobTwoByOne) true).findChunk (0, 0)).map
      (fun ch => (ch.width, ch.height)) = some (2, 1) :=
  ⟨by decide, by decide, by decide,
    (blob_dimensions_override wmInFlight (0, 0)
        ((ImageChunk.ofInfo chunkInfoA).updateStatus .requesting) blobTwoByOne 2 1
        [9, 9, 9, 9, 8, 8, 8, 8] true (by decide) (by decide) (by decide)).1⟩

/-! ## C6: concurrency cap invariant -/

/-- The inductive invariant: the `activeRequests` counter equals the number
of in-flight fetches and never exceeds the cap. -/
def ChunkManager.Inv (m : ChunkManager) : Prop :=
  m.activeRequests = m.inFlight.length ∧ m.activeRequests ≤ maxConcurrentRequests

lemma processQueue_inv {m : ChunkManager} (h : m.Inv) : m.processQueue.Inv := by
  obtain ⟨h1, h2⟩ := h
  unfold ChunkManager.processQueue
  split
  · exact ⟨h1, h2⟩
  · next hcap =>
    split
    · exact ⟨h1, h2⟩
    · next q rest heq =>
      dsimp only
      split
      · next hf =>
        constructor
        · show m.activeRequests + 1 - 1 = m.inFlight.length
          omega
        · show m.activeRequests + 1 - 1 ≤ maxConcurrentRequests
          omega
      · next cq hf =>
        constructor
        · show m.activeRequests + 1 = (q :: m.inFlight).length
          rw [List.length_cons]
          omega
        · show m.activeRequests + 1 ≤ maxConcurrentRequests
          unfold maxConcurrentRequests at *
          omega

lemma settleCore_inv {m : ChunkManager} {chunkId : ChunkId} {r : FetchResult} {g : Bool}
    (h : m.Inv) : (m.settleCore chunkId r g).Inv := by
  obtain ⟨h1, h2⟩ := h
  unfold ChunkManager.settleCore
  split
  · next hin =>
    have hlen : (m.inFlight.erase chunkId).length = m.inFlight.length - 1 :=
      List.length_erase_of_mem hin
    have hpos : 0 < m.inFlight.length := List.length_pos_of_mem hin
    dsimp only
    split
    · next hf =>
      constructor
      · dsimp only
        rw [hlen]
        omega
      · dsimp only
        unfold maxConcurrentRequests at *
        omega
    · next cq hf =>
      constructor
      · dsimp only
        rw [applyOutcome_activeRequests, applyOutcome_inFlight]
        dsimp only
        rw [hlen]
        omega
      · dsimp only
        rw [applyOutcome_activeRequests]
        dsimp only
        unfold maxConcurrentRequests at *
        omega
  · exact ⟨h1, h2⟩

lemma requestChunk_inv {m : ChunkManager} {chunkId : ChunkId} (h : m.Inv) :
    (m.requestChunk chunkId).Inv := by
  unfold ChunkManager.requestChunk
  split
  · exact h
  · split
    · exact h
    · exact processQueue_inv h

lemma step_inv {m : ChunkManager} {e : Event} (h : m.Inv) : (m.step e).Inv := by
  cases e with
  | request chunkId => exact requestChunk_inv h
  | settle chunkId r g => exact processQueue_inv (settleCore_inv h)

lemma run_inv {m : ChunkManager} (evs : List Event) (h : m.Inv) : (m.run evs).Inv := by
  induction evs generalizing m with
  | nil => exact h
  | cons e evs ih => exact ih (step_inv h)

/-- C6: in every state reachable in a session (any interleaving of requests
and settlements from an initialized manager), the `activeRequests` counter
and the number of outstanding fetches never exceed the cap of 3:
`processQueue` starts a new request only when fewer than
`maxConcurrentRequests` are in flight. -/
theorem activeRequests_le_cap (metadata : ImageMetadata) (evs : List Event) :
    ((initializeChunksFromMetadata metadata).run evs).activeRequests ≤
      maxConcurrentRequests ∧
    ((initializeChunksFromMetadata metadata).run evs).inFlight.length ≤
      maxConcurrentRequests := by
  have h0 : (initializeChunksFromMetadata metadata).Inv :=
    ⟨rfl, Nat.zero_le maxConcurrentRequests⟩
  have h := run_inv evs h0
  exact ⟨h.2, by rw [← h.1]; exact h.2⟩

/-! ## C3, C4, C8: duplicate requests, texture release, requests after ERROR -/

/-- Metadata of a 2×2 grid of 1×1 chunks. -/
def mdTwoByTwo : ImageMetadata :=
  { total_width := 2, total_height := 2, chunk_size := 1, chunks_x := 2, chunks_y := 2,
    chunks := [⟨0, 0, 1, 1, 0, 0⟩, ⟨1, 0, 1, 1, 1, 0⟩,
      ⟨0, 1, 1, 1, 0, 1⟩, ⟨1, 1, 1, 1, 1, 1⟩] }

/-- A well-formed 1×1 chunk blob: header `1 × 1`, four pixel bytes. -/
def blobOneByOne : List Nat := [0, 0, 0, 1, 0, 0, 0, 1, 255, 0, 0, 255]

/-- A session in which chunk `(1, 1)` is requested twice while the
concurrency cap is saturated by the three other chunks — so it is still
`UNREQUESTED` both times and is queued twice — after which every fetch
succeeds; the two queue entries each trigger a fetch and an upload. -/
def dupRequestTrace : List Event :=
  [.request (0, 0), .request (1, 0), .request (0, 1),
   .request (1, 1), .request (1, 1),
   .settle (0, 0) (.ok blobOneByOne) true,
   .settle (1, 0) (.ok blobOneByOne) true,
   .settle (1, 1) (.ok blobOneByOne) true,
   .settle (1, 1) (.ok blobOneByOne) true]

/-- C3 counterexample: in the session `dupRequestTrace` chunk `(1, 1)` is
uploaded to the GPU twice, so the manager does not upload at most once per
chunk per session. -/
theorem chunk_uploaded_twice :
    ¬ (((initializeChunksFromMetadata mdTwoByTwo).run dupRequestTrace).uploads.count
        ((1, 1) : ChunkId) ≤ 1) := by
  decide

/-- C3 amended: a repeated request for a chunk that is already
`REQUESTING`, `IN_CPU` or `IN_GPU` is ignored — the manager state is
unchanged, so no fetch or upload is started for it — but a chunk requested
again while still `UNREQUESTED` in the queue (or in `ERROR`) is enqueued a
second time and can be uploaded more than once in a session. -/
theorem requestChunk_skips_active (m : ChunkManager) (chunkId : ChunkId) (c : ImageChunk)
    (hc : m.findChunk chunkId = some c)
    (hs : c.status = .requesting ∨ c.status = .inCpu ∨ c.status = .inGpu) :
    m.requestChunk chunkId = m := by
  unfold ChunkManager.requestChunk
  simp only [hc]
  rw [if_pos hs]

/-- A manager holding one chunk currently in the `REQUESTING` state. -/
def wmRequesting : ChunkManager :=
  { chunks := [((0, 0), (ImageChunk.ofInfo chunkInfoA).updateStatus .requesting)] }

/-- Witness for the C3 amendment: a repeated request for the requesting
chunk leaves the manager untouched. -/
theorem requestChunk_skips_active_witness :
    wmRequesting.findChunk (0, 0) =
      some ((ImageChunk.ofInfo chunkInfoA).updateStatus .requesting) ∧
    ((ImageChunk.ofInfo chunkInfoA).updateStatus .requesting).status =
      ChunkStatus.requesting ∧
    wmRequesting.requestChunk (0, 0) = wmRequesting :=
  ⟨by decide, by decide,
    requestChunk_skips_active wmRequesting (0, 0)
      ((ImageChunk.ofInfo chunkInfoA).updateStatus .requesting) (by decide)
      (Or.inl (by decide))⟩

/-- The `dupRequestTrace` session with the last fetch of `(1, 1)` failing:
the chunk re-enters the pipeline after its first upload, and the failure
moves it to `ERROR` without releasing the texture it acquired. -/
def texLeakTrace : List Event :=
  [.request (0, 0), .request (1, 0), .request (0, 1),
   .request (1, 1), .request (1, 1),
   .settle (0, 0) (.ok blobOneByOne) true,
   .settle (1, 0) (.ok blobOneByOne) true,
   .settle (1, 1) (.ok blobOneByOne) true,
   .settle (1, 1) .err true]

/-- C4 counterexample: a reachable state in which chunk `(1, 1)` has status
`ERROR` yet still holds GPU texture handle `2` — a chunk can hold a texture
outside `IN_GPU`, and the transition to `ERROR` did not release it. -/
theorem texture_held_outside_inGpu :
    ((((initializeChunksFromMetadata mdTwoByTwo).run texLeakTrace).findChunk (1, 1)).map
      (fun c => (c.status, c.texture)) = some (.error, some 2)) ∧
    ChunkStatus.error ≠ ChunkStatus.inGpu := by
  exact ⟨by decide, by decide⟩

/-- C4 amended: a chunk acquires a texture exactly at the `IN_GPU`
transition (`setTexture`), and the transition back to `UNREQUESTED`
(`cleanup`) releases the texture and the pixel data; but the `updateStatus`
transition to `ERROR` leaves a held texture in place. -/
theorem texture_lifecycle (c : ImageChunk) (t : Nat) :
    ((c.setTexture t).status = .inGpu ∧ (c.setTexture t).texture = some t) ∧
    (c.cleanup.texture = none ∧ c.cleanup.data = none ∧
      c.cleanup.status = .unrequested) ∧
    (c.updateStatus .error).texture = c.texture :=
  ⟨⟨rfl, rfl⟩, ⟨rfl, rfl, rfl⟩, rfl⟩

/-- Metadata of a single 1×1 chunk. -/
def mdOneByOne : ImageMetadata :=
  { total_width := 1, total_height := 1, chunk_size := 1, chunks_x := 1, chunks_y := 1,
    chunks := [⟨0, 0, 1, 1, 0, 0⟩] }

/-- Request the only chunk, fail its fetch, then request it again. -/
def errorRetryTrace : List Event :=
  [.request (0, 0), .settle (0, 0) .err true, .request (0, 0)]

/-- C8 counterexample: chunk `(0, 0)` reaches `ERROR` after its failed
fetch, and the subsequent `requestChunk` re-enqueues it — it leaves `ERROR`
for `REQUESTING` and a new fetch is in flight, so `ERROR` is not terminal. -/
theorem error_chunk_requeued :
    ((((initializeChunksFromMetadata mdOneByOne).run (errorRetryTrace.take 2)).findChunk
        (0, 0)).map ImageChunk.status = some .error) ∧
    ((((initializeChunksFromMetadata mdOneByOne).run errorRetryTrace).findChunk
        (0, 0)).map ImageChunk.status = some .requesting) ∧
    ((0, 0) : ChunkId) ∈
      ((initializeChunksFromMetadata mdOneByOne).run errorRetryTrace).inFlight := by
  exact ⟨by decide, by decide, by decide⟩

/-- C8 amended: `ERROR` is not terminal — `requestChunk` skips only
`REQUESTING`, `IN_CPU` and `IN_GPU`, so a request for a chunk in `ERROR`
pushes it back onto the queue and pumps the queue, exactly as for an
`UNREQUESTED` chunk, and the chunk may be re-fetched and leave `ERROR`. -/
theorem requestChunk_reenqueues_error (m : ChunkManager) (chunkId : ChunkId)
    (c : ImageChunk) (hc : m.findChunk chunkId = some c) (hs : c.status = .error) :
    m.requestChunk chunkId =
      ({ m with requestQueue := m.requestQueue ++ [chunkId] } : ChunkManager).processQueue := by
  unfold ChunkManager.requestChunk
  simp only [hc]
  rw [if_neg (by simp [hs])]

/-- A manager holding one chunk currently in the `ERROR` state. -/
def wmError : ChunkManager :=
  { chunks := [((0, 0), (ImageChunk.ofInfo chunkInfoA).updateStatus .error)] }

/-- Witness for the C8 amendment: requesting the errored chunk enqueues it
and pumps the queue. -/
theorem requestChunk_reenqueues_error_witness :
    wmError.findChunk (0, 0) =
      some ((ImageChunk.ofInfo chunkInfoA).updateStatus .error) ∧
    ((ImageChunk.ofInfo chunkInfoA).updateStatus .error).status = ChunkStatus.error ∧
    wmError.requestChunk (0, 0) =
      ({ wmError with requestQueue := wmError.requestQueue ++ [(0, 0)] } :
        ChunkManager).processQueue :=
  ⟨by decide, by decide,
    requestChunk_reenqueues_error wmError (0, 0)
      ((ImageChunk.ofInfo chunkInfoA).updateStatus .error) (by decide) (by decide)⟩

/-! ## C7: failure isolation -/

/-- A failing per-chunk outcome: the fetch rejected, the blob failed
framing validation, or the GPU upload failed. -/
def FailingOutcome : FetchResult → Bool → Prop
  | .err, _ => True
  | .ok bytes, g => parseChunkBlob bytes = none ∨ g = false

lemma failingOutcome_cases {r : FetchResult} {g : Bool} (h : FailingOutcome r g) :
    r = .err ∨ (∃ bytes, r = .ok bytes ∧ parseChunkBlob bytes = none) ∨
      (∃ bytes, r = .ok bytes ∧ g = false) := by
  cases r with
  | err => exact Or.inl rfl
  | ok bytes =>
    have h' : parseChunkBlob bytes = none ∨ g = false := h
    rcases h' with hp | hg
    · exact Or.inr (Or.inl ⟨bytes, rfl, hp⟩)
    · exact Or.inr (Or.inr ⟨bytes, rfl, hg⟩)

lemma settleCore_activeRequests {m : ChunkManager} {chunkId : ChunkId} {c : ImageChunk}
    (r : FetchResult) (g : Bool) (hin : chunkId ∈ m.inFlight)
    (hc : m.findChunk chunkId = some c) :
    (m.settleCore chunkId r g).activeRequests = m.activeRequests - 1 := by
  rw [settleCore_eq_of_found r g hin hc]
  dsimp only
  rw [applyOutcome_activeRequests]

lemma settleCore_requestQueue {m : ChunkManager} {chunkId : ChunkId} {c : ImageChunk}
    (r : FetchResult) (g : Bool) (hin : chunkId ∈ m.inFlight)
    (hc : m.findChunk chunkId = some c) :
    (m.settleCore chunkId r g).requestQueue = m.requestQueue := by
  rw [settleCore_eq_of_found r g hin hc]
  dsimp only
  rw [applyOutcome_requestQueue]

lemma settleCore_inFlight_erase {m : ChunkManager} {chunkId : ChunkId} {c : ImageChunk}
    (r : FetchResult) (g : Bool) (hin : chunkId ∈ m.inFlight)
    (hc : m.findChunk chunkId = some c) :
    (m.settleCore chunkId r g).inFlight = m.inFlight.erase chunkId := by
  rw [settleCore_eq_of_found r g hin hc]
  dsimp only
  rw [applyOutcome_inFlight]

lemma settleCore_findChunk_other {m : ChunkManager} {chunkId : ChunkId} {c : ImageChunk}
    (r : FetchResult) (g : Bool) (hin : chunkId ∈ m.inFlight)
    (hc : m.findChunk chunkId = some c) {j : ChunkId} (hne : j ≠ chunkId) :
    (m.settleCore chunkId r g).findChunk j = m.findChunk j := by
  rw [settleCore_eq_of_found r g hin hc]
  exact applyOutcome_findChunk_other _ chunkId c r g hne

lemma settleCore_status_fail {m : ChunkManager} {chunkId : ChunkId} {c : ImageChunk}
    {r : FetchResult} {g : Bool} (hin : chunkId ∈ m.inFlight)
    (hc : m.findChunk chunkId = some c) (hfail : FailingOutcome r g) :
    ((m.settleCore chunkId r g).findChunk chunkId).map ImageChunk.status =
      some .error := by
  rw [settleCore_ok_findChunk_eq r g hin hc]
  exact applyOutcome_status_of_fail hc (failingOutcome_cases hfail)

/-- C7: when the fetch, blob parsing or GPU upload of an in-flight chunk
fails, the failing chunk transitions to `ERROR`, its concurrency slot is
released (the resumed body decrements `activeRequests`), the trailing
`processQueue` call starts the next queued chunk id (which transitions to
`REQUESTING` with a new fetch in flight), and every chunk other than the
failing one and the newly started one is unchanged.  The hypotheses say the
settling id is not also sitting in the queue, the cap invariant holds, and
every queued id is a known chunk — all of which hold in reachable states. -/
theorem chunk_failure_isolated (m : ChunkManager) (chunkId : ChunkId) (c : ImageChunk)
    (r : FetchResult) (gpuOk : Bool)
    (hin : chunkId ∈ m.inFlight) (hc : m.findChunk chunkId = some c)
    (hfail : FailingOutcome r gpuOk)
    (hqid : chunkId ∉ m.requestQueue)
    (hcap : m.activeRequests ≤ maxConcurrentRequests)
    (hqok : ∀ q ∈ m.requestQueue, (m.findChunk q).isSome) :
    (((m.settleRequest chunkId r gpuOk).findChunk chunkId).map ImageChunk.status =
      some .error) ∧
    ((m.settleCore chunkId r gpuOk).activeRequests = m.activeRequests - 1) ∧
    (∀ q rest, m.requestQueue = q :: rest →
      (((m.settleRequest chunkId r gpuOk).findChunk q).map ImageChunk.status =
        some .requesting) ∧
      q ∈ (m.settleRequest chunkId r gpuOk).inFlight ∧
      (m.settleRequest chunkId r gpuOk).requestQueue = rest) ∧
    (∀ j : ChunkId, j ≠ chunkId → m.requestQueue.head? ≠ some j →
      (m.settleRequest chunkId r gpuOk).findChunk j = m.findChunk j) := by
  have hmcq : (m.settleCore chunkId r gpuOk).requestQueue = m.requestQueue :=
    settleCore_requestQueue r gpuOk hin hc
  have hmca : (m.settleCore chunkId r gpuOk).activeRequests = m.activeRequests - 1 :=
    settleCore_activeRequests r gpuOk hin hc
  have hmcf := settleCore_status_fail hin hc hfail
  have hhead : ∀ j : ChunkId, m.requestQueue.head? = some j → j ∈ m.requestQueue := by
    intro j hj
    cases hq : m.requestQueue with
    | nil => rw [hq] at hj; cases hj
    | cons a l =>
      rw [hq] at hj
      simp only [List.head?_cons, Option.some.injEq] at hj
      subst hj
      exact List.mem_cons_self a l
  refine ⟨?_, hmca, ?_, ?_⟩
  · have hne : (m.settleCore chunkId r gpuOk).requestQueue.head? ≠ some chunkId := by
      rw [hmcq]
      intro hcontra
      exact hqid (hhead chunkId hcontra)
    rw [ChunkManager.settleRequest, processQueue_findChunk_of_head_ne hne]
    exact hmcf
  · intro q rest hq
    have hqmem : q ∈ m.requestQueue := by rw [hq]; exact List.mem_cons_self q rest
    have hqne : q ≠ chunkId := fun h => hqid (h ▸ hqmem)
    obtain ⟨cq, hcq⟩ := Option.isSome_iff_exists.mp (hqok q hqmem)
    have hfound : (m.settleCore chunkId r gpuOk).findChunk q = some cq := by
      rw [settleCore_findChunk_other r gpuOk hin hc hqne]
      exact hcq
    have hcap' : (m.settleCore chunkId r gpuOk).activeRequests < maxConcurrentRequests := by
      rw [hmca]
      unfold maxConcurrentRequests at *
      omega
    have hq' : (m.settleCore chunkId r gpuOk).requestQueue = q :: rest := by
      rw [hmcq, hq]
    rw [ChunkManager.settleRequest, processQueue_starts hcap' hq' hfound]
    refine ⟨?_, ?_, ?_⟩
    · have hfoundL : lookupChunk (m.settleCore chunkId r gpuOk).chunks q = some cq := hfound
      simp only [ChunkManager.setChunk, ChunkManager.findChunk]
      rw [lookupChunk_storeChunk_self _ hfoundL]
      rfl
    · simp only [ChunkManager.setChunk]
      exact List.mem_cons_self q _
    · rfl
  · intro j hj hjhead
    have hne : (m.settleCore chunkId r gpuOk).requestQueue.head? ≠ some j := by
      rw [hmcq]
      exact hjhead
    rw [ChunkManager.settleRequest, processQueue_findChunk_of_head_ne hne]
    exact settleCore_findChunk_other r gpuOk hin hc hj

/-- Second chunk of a 2×1 grid, used by the C7 witness. -/
def chunkInfoB : ChunkInfo := ⟨1, 0, 1, 1, 1, 0⟩

/-- A manager with chunk `(0, 0)` in flight and chunk `(1, 0)` queued. -/
def wmQueued : ChunkManager :=
  { chunks := [((0, 0), (ImageChunk.ofInfo chunkInfoA).updateStatus .requesting),
               ((1, 0), ImageChunk.ofInfo chunkInfoB)],
    requestQueue := [(1, 0)], activeRequests := 1, inFlight := [(0, 0)] }

/-- Witness for C7: failing the in-flight fetch of `(0, 0)` errors that
chunk and starts the queued chunk `(1, 0)`. -/
theorem chunk_failure_isolated_witness :
    ((0, 0) : ChunkId) ∈ wmQueued.inFlight ∧
    (((wmQueued.settleRequest (0, 0) .err true).findChunk (0, 0)).map ImageChunk.status =
      some .error) ∧
    (((wmQueued.settleRequest (0, 0) .err true).findChunk (1, 0)).map ImageChunk.status =
      some .requesting) ∧
    (wmQueued.settleRequest (0, 0) .err true).requestQueue = [] :=
  ⟨by decide,
    (chunk_failure_isolated wmQueued (0, 0)
      ((ImageChunk.ofInfo chunkInfoA).updateStatus .requesting) .err true
      (by decide) (by decide) trivial (by decide) (by decide) (by decide)).1,
    ((chunk_failure_isolated wmQueued (0, 0)
      ((ImageChunk.ofInfo chunkInfoA).updateStatus .requesting) .err true
      (by decide) (by decide) trivial (by decide) (by decide) (by decide)).2.2.1
        (1, 0) [] rfl).1,
    ((chunk_failure_isolated wmQueued (0, 0)
      ((ImageChunk.ofInfo chunkInfoA).updateStatus .requesting) .err true
      (by decide) (by decide) trivial (by decide) (by decide) (by decide)).2.2.1
        (1, 0) [] rfl).2.2⟩
